import Mathlib

/-!
# Verification of the HdrHistogram log codec (`hdr_histogram_log.c`)

A shallow embedding of the persistence/interchange codec for HdrHistogram:
the Base64 codec, the flyweight binary encoding with its compressed envelope,
and the line-oriented log parser, together with proofs about them.

Byte sequences are modelled as `List Nat` (each element a byte value), text as
`List Char`, C `int`/`int32_t`/`int64_t` values as `Int` with explicit
two's-complement reduction where width matters, and fallible operations as
`Except Int` carrying the C error code.
-/

set_option linter.unusedVariables false

namespace HdrLog

/-- `EINVAL` from `<errno.h>` (value 22 on Linux): the invalid-argument code. -/
def EINVAL : Int := 22

/-- `ENOMEM` from `<errno.h>` (value 12 on Linux): the out-of-memory code. -/
def ENOMEM : Int := 12

/-! ## Base64 codec -/

/-- `base64_table`: the standard Base64 alphabet.  The C array carries a
trailing NUL terminator, but every index used is masked with `0x3F`, so only
the 64 alphabet entries are ever read. -/
def base64_table : List Char :=
  ['A', 'B', 'C', 'D', 'E', 'F', 'G', 'H', 'I', 'J', 'K', 'L', 'M',
   'N', 'O', 'P', 'Q', 'R', 'S', 'T', 'U', 'V', 'W', 'X', 'Y', 'Z',
   'a', 'b', 'c', 'd', 'e', 'f', 'g', 'h', 'i', 'j', 'k', 'l', 'm',
   'n', 'o', 'p', 'q', 'r', 's', 't', 'u', 'v', 'w', 'x', 'y', 'z',
   '0', '1', '2', '3', '4', '5', '6', '7', '8', '9', '+', '/']

/-- `get_base_64`: select the six-bit group of `_24_bit_value` at `shift`
(`0x3F & (_24_bit_value >> shift)`) and map it through `base64_table`.  The
index is always below 64, so the `getD` default is never used. -/
def get_base_64 (v : Nat) (shift : Nat) : Char :=
  base64_table.getD (v / 2 ^ shift % 64) 'A'

/-- `from_base_64`: the six-bit value of a Base64 character; `=` decodes to 0,
and any character outside the alphabet yields `EINVAL` (22). -/
def from_base_64 (c : Char) : Int :=
  if 'A' ≤ c ∧ c ≤ 'Z' then ((c.toNat - 'A'.toNat : Nat) : Int)
  else if 'a' ≤ c ∧ c ≤ 'z' then ((c.toNat - 'a'.toNat + 26 : Nat) : Int)
  else if '0' ≤ c ∧ c ≤ '9' then ((c.toNat - '0'.toNat + 52 : Nat) : Int)
  else if c = '+' then 62
  else if c = '/' then 63
  else if c = '=' then 0
  else EINVAL

/-- `base64_encoded_len`: `ceil(n / 3) * 4`.  The C computes this through
floating point (`ceil(decoded_size / 3.0) * 4.0`), which is exact for every
size below `2^53`; modelled as exact ceiling division on naturals. -/
def base64_encoded_len (decoded_size : Nat) : Nat := (decoded_size + 2) / 3 * 4

/-- `base64_decoded_len`: `(encoded_size / 4) * 3`. -/
def base64_decoded_len (encoded_size : Nat) : Nat := encoded_size / 4 * 3

/-- `base64_encode_block`: three input bytes to four output characters. -/
def base64_encode_block (b0 b1 b2 : Nat) : List Char :=
  [get_base_64 (b0 * 2 ^ 16 + b1 * 2 ^ 8 + b2) 18,
   get_base_64 (b0 * 2 ^ 16 + b1 * 2 ^ 8 + b2) 12,
   get_base_64 (b0 * 2 ^ 16 + b1 * 2 ^ 8 + b2) 6,
   get_base_64 (b0 * 2 ^ 16 + b1 * 2 ^ 8 + b2) 0]

/-- `base64_encode_block_pad`: the final group of 1 or 2 remaining bytes with
`=` padding; for `pad = 0` (no remainder) the C `switch` writes nothing. -/
def base64_encode_block_pad (input : List Nat) : List Char :=
  match input with
  | [b0, b1] =>
    [get_base_64 (b0 * 2 ^ 16 + b1 * 2 ^ 8) 18,
     get_base_64 (b0 * 2 ^ 16 + b1 * 2 ^ 8) 12,
     get_base_64 (b0 * 2 ^ 16 + b1 * 2 ^ 8) 6, '=']
  | [b0] =>
    [get_base_64 (b0 * 2 ^ 16) 18, get_base_64 (b0 * 2 ^ 16) 12, '=', '=']
  | _ => []

/-- The loop of `base64_encode`: whole 3-byte groups, then the padded
remainder group. -/
def base64_encode_blocks : List Nat → List Char
  | b0 :: b1 :: b2 :: rest => base64_encode_block b0 b1 b2 ++ base64_encode_blocks rest
  | rest => base64_encode_block_pad rest

/-- `base64_encode`: validates that the caller-supplied output length equals
`base64_encoded_len(input_len)` (else `EINVAL`), then emits the text. -/
def base64_encode (input : List Nat) (output_len : Nat) : Except Int (List Char) :=
  if base64_encoded_len input.length ≠ output_len then .error EINVAL
  else .ok (base64_encode_blocks input)

/-- `base64_decode_block`: four characters to three bytes.  `from_base_64`
always returns a value in `[0, 63]` (an out-of-alphabet character contributes
the unchecked value `EINVAL = 22`), so the C bitwise-or of the four disjoint
six-bit fields equals their sum. -/
def base64_decode_block (c0 c1 c2 c3 : Char) : List Nat :=
  [((from_base_64 c0).toNat * 2 ^ 18 + (from_base_64 c1).toNat * 2 ^ 12 +
      (from_base_64 c2).toNat * 2 ^ 6 + (from_base_64 c3).toNat) / 2 ^ 16 % 256,
   ((from_base_64 c0).toNat * 2 ^ 18 + (from_base_64 c1).toNat * 2 ^ 12 +
      (from_base_64 c2).toNat * 2 ^ 6 + (from_base_64 c3).toNat) / 2 ^ 8 % 256,
   ((from_base_64 c0).toNat * 2 ^ 18 + (from_base_64 c1).toNat * 2 ^ 12 +
      (from_base_64 c2).toNat * 2 ^ 6 + (from_base_64 c3).toNat) % 256]

/-- The loop of `base64_decode`: 4-character groups. -/
def base64_decode_blocks : List Char → List Nat
  | c0 :: c1 :: c2 :: c3 :: rest => base64_decode_block c0 c1 c2 c3 ++ base64_decode_blocks rest
  | _ => []

/-- `base64_decode`: validates the input length (at least 4, a multiple of 4,
and output length exactly `input_len / 4 * 3`), then decodes groupwise. -/
def base64_decode (input : List Char) (output_len : Nat) : Except Int (List Nat) :=
  if input.length < 4 ∨ input.length % 4 ≠ 0 ∨ input.length / 4 * 3 ≠ output_len then
    .error EINVAL
  else .ok (base64_decode_blocks input)

/-! ### Base64 lemmas -/

/-- Decoding inverts the alphabet table on every six-bit value. -/
theorem from_base_64_table : ∀ k, k < 64 → from_base_64 (base64_table.getD k 'A') = (k : Int) := by
  decide

/-- `from_base_64` inverts `get_base_64` (as a natural number). -/
theorem from_base_64_get (v shift : Nat) :
    (from_base_64 (get_base_64 v shift)).toNat = v / 2 ^ shift % 64 := by
  rw [get_base_64, from_base_64_table _ (Nat.mod_lt _ (by norm_num))]
  exact Int.toNat_natCast _

/-- `=` decodes to zero. -/
theorem from_base_64_eq_char : (from_base_64 '=').toNat = 0 := by decide

/-- Length of the encoded text. -/
theorem length_base64_encode_blocks :
    ∀ bs : List Nat, (base64_encode_blocks bs).length = (bs.length + 2) / 3 * 4
  | [] => by simp [base64_encode_blocks, base64_encode_block_pad]
  | [b0] => by simp [base64_encode_blocks, base64_encode_block_pad]
  | [b0, b1] => by simp [base64_encode_blocks, base64_encode_block_pad]
  | b0 :: b1 :: b2 :: rest => by
    have ih := length_base64_encode_blocks rest
    simp only [base64_encode_blocks, base64_encode_block, List.length_append,
      List.length_cons, ih]
    simp only [List.length_nil]
    omega

/-- Decoding the blocks of an encoding recovers the bytes, zero-padded to a
multiple of three. -/
theorem base64_decode_blocks_encode_blocks :
    ∀ bs : List Nat, (∀ b ∈ bs, b < 256) →
      base64_decode_blocks (base64_encode_blocks bs) =
        bs ++ List.replicate ((3 - bs.length % 3) % 3) 0
  | [], _ => by
    simp [base64_encode_blocks, base64_encode_block_pad, base64_decode_blocks]
  | [b0], hb => by
    have h0 : b0 < 256 := hb b0 (by simp)
    simp only [base64_encode_blocks, base64_encode_block_pad, base64_decode_blocks,
      base64_decode_block, from_base_64_get, from_base_64_eq_char, List.append_nil,
      List.replicate, List.length_cons, List.length_nil]
    norm_num
    omega
  | [b0, b1], hb => by
    have h0 : b0 < 256 := hb b0 (by simp)
    have h1 : b1 < 256 := hb b1 (by simp)
    simp only [base64_encode_blocks, base64_encode_block_pad, base64_decode_blocks,
      base64_decode_block, from_base_64_get, from_base_64_eq_char, List.append_nil,
      List.replicate, List.length_cons, List.length_nil]
    norm_num
    omega
  | b0 :: b1 :: b2 :: rest, hb => by
    have h0 : b0 < 256 := hb b0 (by simp)
    have h1 : b1 < 256 := hb b1 (by simp)
    have h2 : b2 < 256 := hb b2 (by simp)
    have ih := base64_decode_blocks_encode_blocks rest
      (fun b hbmem => hb b (by simp [hbmem]))
    have hmod : (3 - (rest.length + 1 + 1 + 1) % 3) % 3 = (3 - rest.length % 3) % 3 := by
      omega
    simp only [base64_encode_blocks, base64_encode_block, List.cons_append,
      List.nil_append, List.append_eq, base64_decode_blocks, base64_decode_block,
      from_base_64_get, List.length_cons, hmod, ih, List.cons.injEq, List.cons_append,
      and_true, true_and]
    norm_num
    omega

/-- **C2** (code bug): `base64_decode` accepts out-of-alphabet symbols instead
of failing with `EINVAL`.  `from_base_64` does signal `EINVAL` (22) for an
invalid character, but `base64_decode_block` never inspects that return value:
it folds 22 into the 24-bit group as if it were a six-bit symbol value, so
`base64_decode "!!!!"` succeeds and produces the bytes `[89, 101, 150]`. -/
theorem base64_decode_invalid_symbol_accepted :
    from_base_64 '!' = EINVAL ∧
      base64_decode ['!', '!', '!', '!'] 3 = Except.ok [89, 101, 150] := by
  constructor
  · rfl
  · rfl

/-- **C7** (corrected): Base64 round trip through the C entry points.  For a
non-empty byte sequence, decoding the encoding succeeds but yields the
original bytes right-padded with zero bytes to a multiple of three (exactly
the original only when the length is a multiple of 3, since decode output
length is always `(input_len / 4) * 3`); the empty sequence encodes to the
empty text, which `base64_decode` rejects with `EINVAL` (its length check
requires at least four characters). -/
theorem base64_decode_encode_padded (bytes : List Nat) (hb : ∀ b ∈ bytes, b < 256) :
    base64_encode bytes (base64_encoded_len bytes.length) =
        Except.ok (base64_encode_blocks bytes) ∧
      base64_decode (base64_encode_blocks bytes)
          (base64_decoded_len (base64_encode_blocks bytes).length) =
        (if bytes = [] then Except.error EINVAL
         else Except.ok (bytes ++ List.replicate ((3 - bytes.length % 3) % 3) 0)) := by
  refine ⟨by simp [base64_encode], ?_⟩
  rcases bytes with _ | ⟨b, bs⟩
  · rfl
  · have hlen := length_base64_encode_blocks (b :: bs)
    have hcheck : ¬((base64_encode_blocks (b :: bs)).length < 4 ∨
        (base64_encode_blocks (b :: bs)).length % 4 ≠ 0 ∨
        (base64_encode_blocks (b :: bs)).length / 4 * 3 ≠
          base64_decoded_len (base64_encode_blocks (b :: bs)).length) := by
      push_neg
      refine ⟨?_, ?_, rfl⟩ <;> rw [hlen] <;> simp <;> omega
    rw [base64_decode, if_neg hcheck, base64_decode_blocks_encode_blocks _ hb,
      if_neg (List.cons_ne_nil b bs)]

/-- Witness for `base64_decode_encode_padded` at the one-byte input `[77]`. -/
theorem base64_decode_encode_padded_witness :
    (∀ b ∈ ([77] : List Nat), b < 256) ∧
      (base64_encode [77] (base64_encoded_len ([77] : List Nat).length) =
          Except.ok (base64_encode_blocks [77]) ∧
        base64_decode (base64_encode_blocks [77])
            (base64_decoded_len (base64_encode_blocks [77]).length) =
          (if ([77] : List Nat) = [] then Except.error EINVAL
           else Except.ok
             ([77] ++ List.replicate ((3 - ([77] : List Nat).length % 3) % 3) 0))) :=
  ⟨by decide, base64_decode_encode_padded [77] (by decide)⟩

/-- **C7 counterexample**: the round trip is not exact.  Encoding the single
byte `77` (`"M"`) gives `"TQ=="`, and decoding `"TQ=="` (with the decode
output length `(4 / 4) * 3 = 3` used by the parser) returns `[77, 0, 0]`,
not `[77]`. -/
theorem base64_roundtrip_not_exact :
    base64_encode [77] (base64_encoded_len 1) = Except.ok ['T', 'Q', '=', '='] ∧
      base64_decode ['T', 'Q', '=', '='] (base64_decoded_len 4) = Except.ok [77, 0, 0] ∧
      ([77, 0, 0] : List Nat) ≠ [77] := by
  refine ⟨by rfl, by rfl, by decide⟩

/-! ## Binary flyweight layout and integer serialization -/

/-- Big-endian byte image of a two's-complement `int32` (`htobe32`). -/
def be32Bytes (v : Int) : List Nat :=
  [(v % 2 ^ 32).toNat / 2 ^ 24 % 256, (v % 2 ^ 32).toNat / 2 ^ 16 % 256,
   (v % 2 ^ 32).toNat / 2 ^ 8 % 256, (v % 2 ^ 32).toNat % 256]

/-- Big-endian byte image of a two's-complement `int64` (`htobe64`). -/
def be64Bytes (v : Int) : List Nat :=
  [(v % 2 ^ 64).toNat / 2 ^ 56 % 256, (v % 2 ^ 64).toNat / 2 ^ 48 % 256,
   (v % 2 ^ 64).toNat / 2 ^ 40 % 256, (v % 2 ^ 64).toNat / 2 ^ 32 % 256,
   (v % 2 ^ 64).toNat / 2 ^ 24 % 256, (v % 2 ^ 64).toNat / 2 ^ 16 % 256,
   (v % 2 ^ 64).toNat / 2 ^ 8 % 256, (v % 2 ^ 64).toNat % 256]

/-- Fold big-endian bytes into a natural number. -/
def beBytesToNat (bs : List Nat) : Nat := bs.foldl (fun acc b => acc * 256 + b) 0

/-- Reinterpret a natural number below `2^32` as a signed `int32`. -/
def toI32 (n : Nat) : Int := if n < 2 ^ 31 then (n : Int) else (n : Int) - 2 ^ 32

/-- Reinterpret a natural number below `2^64` as a signed `int64`. -/
def toI64 (n : Nat) : Int := if n < 2 ^ 63 then (n : Int) else (n : Int) - 2 ^ 64

/-- `be32toh` applied to the 4 bytes at offset `off` of `bs`. -/
def readBE32 (bs : List Nat) (off : Nat) : Int := toI32 (beBytesToNat ((bs.drop off).take 4))

/-- `be64toh` applied to the 8 bytes at offset `off` of `bs`. -/
def readBE64 (bs : List Nat) (off : Nat) : Int := toI64 (beBytesToNat ((bs.drop off).take 8))

@[simp] theorem length_be32Bytes (v : Int) : (be32Bytes v).length = 4 := rfl

@[simp] theorem length_be64Bytes (v : Int) : (be64Bytes v).length = 8 := rfl

/-- Reading back a serialized `int32` recovers the value. -/
theorem readBack_be32 (v : Int) (h1 : -(2 ^ 31) ≤ v) (h2 : v < 2 ^ 31) :
    toI32 (beBytesToNat (be32Bytes v)) = v := by
  simp only [be32Bytes, beBytesToNat, List.foldl, toI32]
  split <;> omega

/-- Reading back a serialized `int64` recovers the value. -/
theorem readBack_be64 (v : Int) (h1 : -(2 ^ 63) ≤ v) (h2 : v < 2 ^ 63) :
    toI64 (beBytesToNat (be64Bytes v)) = v := by
  simp only [be64Bytes, beBytesToNat, List.foldl, toI64]
  split <;> omega

/-! ## Histogram snapshot, cookies, and the compressed encoding -/

/-- The fields of `struct hdr_histogram` (declared in the external
`hdr_histogram.h`) that the codec reads and writes. -/
structure HdrHistogram where
  lowest_trackable_value : Int
  highest_trackable_value : Int
  significant_figures : Int
  total_count : Int
  counts_len : Nat
  counts : List Int
deriving Repr, DecidableEq

/-- `ENCODING_COOKIE = 0x1c849308 + (8 << 4)`. -/
def ENCODING_COOKIE : Int := 0x1c849308 + 8 * 2 ^ 4

/-- `COMPRESSION_COOKIE = 0x1c849309 + (8 << 4)`. -/
def COMPRESSION_COOKIE : Int := 0x1c849309 + 8 * 2 ^ 4

/-- Error code: the envelope cookie did not match. -/
def HDR_COMPRESSION_COOKIE_MISMATCH : Int := -29999

/-- Error code: the decompressed header cookie did not match. -/
def HDR_ENCODING_COOKIE_MISMATCH : Int := -29998

/-- Error code: an inflate step returned an unexpected result. -/
def HDR_INFLATE_FAIL : Int := -29994

/-- Modelled from the spec: `hdr_init`, the histogram constructor, lives in
the external histogram collaborator (`hdr_histogram.c`, not part of this
source file).  Per §6 it builds a fresh zero-count histogram from
`(lowest, highest, significant_figures)`, and per §3 `counts_len` is a fixed
function of that configuration — abstracted here as the parameter
`countsLenOf`. -/
def hdr_init (countsLenOf : Int → Int → Int → Nat) (lowest highest sig : Int) :
    HdrHistogram :=
  { lowest_trackable_value := lowest
    highest_trackable_value := highest
    significant_figures := sig
    total_count := 0
    counts_len := countsLenOf lowest highest sig
    counts := List.replicate (countsLenOf lowest highest sig) 0 }

/-- The `_encoding_flyweight` header written by `hdr_encode_compressed`:
cookie and `significant_figures` as `int32`, then `lowest_trackable_value`,
`highest_trackable_value`, `total_count` as `int64`, all big-endian —
32 bytes in the packed struct. -/
def encodedHeaderBytes (h : HdrHistogram) : List Nat :=
  be32Bytes ENCODING_COOKIE ++ be32Bytes h.significant_figures ++
    be64Bytes h.lowest_trackable_value ++ be64Bytes h.highest_trackable_value ++
    be64Bytes h.total_count

/-- The counts-feeding loop of `hdr_encode_compressed`: counts are converted
with `htobe64` and handed to the compressor 512 at a time (the chunking only
affects buffering, never the bytes of the stream). -/
def feedCounts : List Int → List Nat
  | [] => []
  | c :: rest =>
      (((c :: rest).take 512).map be64Bytes).flatten ++ feedCounts ((c :: rest).drop 512)
termination_by cs => cs.length
decreasing_by simp [List.length_drop]; omega

/-- `hdr_encode_compressed`, at byte level.  zlib's deflate stream is an
external lossless codec driven with `Z_NO_FLUSH`/`Z_FINISH`; its compressed
bits are opaque, so the stream is modelled as the identity transform (what
deflate emits is exactly what the matching inflate model replays, and
`strm.total_out` is the payload length).  The buffer-doubling loop of the
source manages memory only and never changes the emitted stream, so the
envelope is the compression cookie, the payload length, and the payload. -/
def hdr_encode_compressed (h : HdrHistogram) : List Nat :=
  be32Bytes COMPRESSION_COOKIE ++
    be32Bytes (((encodedHeaderBytes h ++ feedCounts h.counts).length : Nat) : Int) ++
    (encodedHeaderBytes h ++ feedCounts h.counts)

/-- `bswap32`: the byte reversal `htobe32` performs on a little-endian host,
as a function on 32-bit values. -/
def bswap32 (n : Nat) : Nat :=
  n % 256 * 2 ^ 24 + n / 2 ^ 8 % 256 * 2 ^ 16 + n / 2 ^ 16 % 256 * 2 ^ 8 + n / 2 ^ 24 % 256

/-- The value `hdr_encode_compressed` returns through `*compressed_len`:
`sizeof(_compression_flyweight) + comp_fw->length`, where `comp_fw->length`
was just assigned `htobe32(strm.total_out)` — the `int32_t` field holds the
big-endian byte image of the total compressed output, so the host-order read
of that field is byte-swapped on a little-endian host and the true length
only on a big-endian one. -/
def encodeReportedLen (hostBigEndian : Bool) (total_out : Nat) : Int :=
  8 + toI32 (if hostBigEndian then total_out % 2 ^ 32 else bswap32 (total_out % 2 ^ 32))

/-- The reported `*compressed_len` for a given histogram under the identity
model of deflate (`strm.total_out` = payload length). -/
def hdr_encode_compressed_len (hostBigEndian : Bool) (h : HdrHistogram) : Int :=
  encodeReportedLen hostBigEndian (encodedHeaderBytes h ++ feedCounts h.counts).length

/-- Big-endian `int64` grouping of the inflated chunk
(`be64toh(counts_array[i])`); an incomplete trailing group cannot occur for a
stream produced by the encoder, whose length is `32 + 8 * counts_len`. -/
def i64Group : List Nat → List Int
  | b0 :: b1 :: b2 :: b3 :: b4 :: b5 :: b6 :: b7 :: rest =>
      toI64 (beBytesToNat [b0, b1, b2, b3, b4, b5, b6, b7]) :: i64Group rest
  | _ => []

/-- The counts store loop of `hdr_decode_compressed`:
`for (i = 0; i < available_counts && counts_index < h->counts_len; i++)
h->counts[counts_index++] = be64toh(counts_array[i]);` — returns the updated
counts array together with `counts_index`. -/
def storeCounts (counts_len : Nat) : List Int → Nat → List Int → List Int × Nat
  | cs, idx, [] => (cs, idx)
  | cs, idx, v :: vs =>
      if idx < counts_len then storeCounts counts_len (cs.set idx v) (idx + 1) vs
      else (cs, idx)

/-- The inflate chunk loop of `hdr_decode_compressed`: each iteration offers
`512 * sizeof(int64_t) = 4096` output bytes; inflate returns `Z_STREAM_END`
exactly when the remaining stream fits into the offered space, else `Z_OK`,
in which case the `do … while (r == Z_OK)` loop repeats. -/
def decodeLoop (counts_len : Nat) (cs : List Int) (idx : Nat) (stream : List Nat) :
    List Int :=
  let r := storeCounts counts_len cs idx (i64Group (stream.take 4096))
  if h : stream.length ≤ 4096 then r.1
  else decodeLoop counts_len r.1 r.2 (stream.drop 4096)
termination_by stream.length
decreasing_by simp [List.length_drop]; omega

/-- `hdr_decode_compressed`, mirroring the source: reject buffers shorter
than `sizeof(_compression_flyweight)` with `EINVAL` (the model has no
preexisting output slot, so the `*histogram != NULL` precondition is
vacuous); check the envelope cookie; inflate — modelled as the identity
stream over the `length`-field-bounded data section — first
`sizeof(_encoding_flyweight)` = 32 header bytes, where a stream that already
ends within those bytes makes the first inflate return `Z_STREAM_END ≠ Z_OK`
(`HDR_INFLATE_FAIL`); check the encoding cookie; construct the histogram with
`hdr_init`, set its `total_count` from the decoded header, and run the counts
loop until stream end.  An error return leaves the output slot unset, which
the `Except.error` result models. -/
def hdr_decode_compressed (countsLenOf : Int → Int → Int → Nat) (buffer : List Nat) :
    Except Int HdrHistogram :=
  if buffer.length < 8 then .error EINVAL
  else if readBE32 buffer 0 ≠ COMPRESSION_COOKIE then .error HDR_COMPRESSION_COOKIE_MISMATCH
  else
    let stream := (buffer.drop 8).take (readBE32 buffer 4).toNat
    if stream.length ≤ 32 then .error HDR_INFLATE_FAIL
    else if readBE32 stream 0 ≠ ENCODING_COOKIE then .error HDR_ENCODING_COOKIE_MISMATCH
    else
      let h0 := hdr_init countsLenOf (readBE64 stream 8) (readBE64 stream 16)
        (readBE32 stream 4)
      .ok { h0 with
              total_count := readBE64 stream 24,
              counts := decodeLoop h0.counts_len h0.counts 0 (stream.drop 32) }

/-! ### Lemmas about the counts stream and the decode loops -/

/-- Length of the serialized counts stream. -/
theorem length_countsBytes (vals : List Int) :
    ((vals.map be64Bytes).flatten).length = 8 * vals.length := by
  induction vals with
  | nil => simp
  | cons v vs ih => simp [ih]; omega

/-- The 512-chunked feeding loop emits exactly the concatenated serialized
counts. -/
theorem feedCounts_eq : ∀ cs : List Int, feedCounts cs = (cs.map be64Bytes).flatten
  | [] => by simp [feedCounts]
  | c :: rest => by
    rw [feedCounts, feedCounts_eq ((c :: rest).drop 512)]
    conv_rhs => rw [← List.take_append_drop 512 (c :: rest)]
    rw [List.map_append, List.flatten_append]
termination_by cs => cs.length
decreasing_by simp [List.length_drop]; omega

/-- Grouping the serialized counts back into `int64`s recovers the values. -/
theorem i64Group_countsBytes :
    ∀ vals : List Int, (∀ v ∈ vals, -(2 ^ 63) ≤ v ∧ v < 2 ^ 63) →
      i64Group ((vals.map be64Bytes).flatten) = vals
  | [], _ => by simp [i64Group]
  | v :: vs, hv => by
    have h8 : i64Group ((be64Bytes v) ++ (vs.map be64Bytes).flatten) =
        toI64 (beBytesToNat (be64Bytes v)) :: i64Group ((vs.map be64Bytes).flatten) := rfl
    have hrange := hv v (by simp)
    simp only [List.map_cons, List.flatten_cons, h8,
      readBack_be64 v hrange.1 hrange.2,
      i64Group_countsBytes vs (fun w hw => hv w (by simp [hw]))]

/-- Once `counts_index` has reached `counts_len`, the store loop is inert. -/
theorem storeCounts_saturated (cl : Nat) (cs : List Int) (idx : Nat)
    (h : ¬ idx < cl) : ∀ vals, storeCounts cl cs idx vals = (cs, idx)
  | [] => rfl
  | v :: vs => by rw [storeCounts, if_neg h]

/-- The store loop processes appended inputs sequentially. -/
theorem storeCounts_append (cl : Nat) :
    ∀ (a b cs : List Int) (idx : Nat),
      storeCounts cl cs idx (a ++ b) =
        storeCounts cl (storeCounts cl cs idx a).1 (storeCounts cl cs idx a).2 b
  | [], b, cs, idx => rfl
  | v :: vs, b, cs, idx => by
    by_cases hidx : idx < cl
    · rw [List.cons_append, storeCounts, if_pos hidx,
        storeCounts_append cl vs b (cs.set idx v) (idx + 1)]
      congr 1 <;> rw [storeCounts, if_pos hidx]
    · rw [List.cons_append, storeCounts, if_neg hidx]
      rw [show storeCounts cl cs idx (v :: vs) = (cs, idx) from by
        rw [storeCounts, if_neg hidx]]
      exact (storeCounts_saturated cl cs idx hidx b).symm

/-- Closed form of the store loop: it overwrites the slice
`[idx, min (idx + vals.length) cl)` of the counts array with the first values
and never touches an index at or beyond `counts_len`. -/
theorem storeCounts_spec (cl : Nat) :
    ∀ (vals cs : List Int) (idx : Nat), cs.length = cl → idx ≤ cl →
      storeCounts cl cs idx vals =
        (cs.take idx ++ vals.take (cl - idx) ++ cs.drop (idx + vals.length),
         min (idx + vals.length) cl)
  | [], cs, idx, hlen, hle => by
    simp only [storeCounts, List.take_nil, List.append_nil, List.length_nil,
      Nat.add_zero]
    rw [List.take_append_drop]
    simp
    omega
  | v :: vs, cs, idx, hlen, hle => by
    by_cases hidx : idx < cl
    · rw [storeCounts, if_pos hidx,
        storeCounts_spec cl vs (cs.set idx v) (idx + 1) (by simp [hlen]) (by omega)]
      have hset : cs.set idx v = cs.take idx ++ v :: cs.drop (idx + 1) := by
        rw [List.set_eq_take_append_cons_drop, if_pos (by omega)]
      have htake : (cs.set idx v).take (idx + 1) = cs.take idx ++ [v] := by
        rw [hset, List.take_append_eq_append_take,
          List.take_of_length_le (l := cs.take idx) (by simp [List.length_take])]
        congr 1
        have h1 : idx + 1 - (cs.take idx).length = 1 := by
          simp [List.length_take]; omega
        rw [h1, List.take_succ_cons]
        simp
      have hdrop : (cs.set idx v).drop (idx + 1 + vs.length) =
          cs.drop (idx + (vs.length + 1)) := by
        rw [List.drop_set_of_lt _ _ (by omega)]
        congr 1
        omega
      rw [htake, hdrop]
      have hv : (v :: vs).take (cl - idx) = v :: vs.take (cl - (idx + 1)) := by
        rw [show cl - idx = (cl - (idx + 1)) + 1 from by omega]
        rfl
      rw [hv, Prod.mk.injEq]
      refine ⟨?_, ?_⟩
      · simp only [List.length_cons, List.append_assoc, List.cons_append,
          List.singleton_append, List.nil_append]
      · simp only [List.length_cons]
        omega
    · have hidx' : idx = cl := by omega
      rw [storeCounts, if_neg hidx]
      have h1 : cs.take idx = cs := List.take_of_length_le (by omega)
      have h2 : cs.drop (idx + (v :: vs).length) = [] :=
        List.drop_of_length_le (by simp; omega)
      have h3 : (v :: vs).take (cl - idx) = [] := by
        rw [show cl - idx = 0 from by omega]
        rfl
      rw [h1, h2, h3]
      simp
      omega

/-- The 4096-byte inflate chunking is invisible at the level of stored counts:
running the decode loop over the serialized counts stream is the same as one
pass of the store loop over the values. -/
theorem decodeLoop_countsBytes (cl : Nat) :
    ∀ (vals cs : List Int) (idx : Nat),
      (∀ v ∈ vals, -(2 ^ 63) ≤ v ∧ v < 2 ^ 63) →
      decodeLoop cl cs idx ((vals.map be64Bytes).flatten) =
        (storeCounts cl cs idx vals).1
  | vals, cs, idx, hv => by
    have hlen := length_countsBytes vals
    by_cases hle : vals.length ≤ 512
    · rw [decodeLoop]
      rw [List.take_of_length_le (by omega), i64Group_countsBytes vals hv,
        dif_pos (by omega)]
    · have hsplit : vals = vals.take 512 ++ vals.drop 512 :=
        (List.take_append_drop 512 vals).symm
      have hlen512 : ((vals.take 512).map be64Bytes).flatten.length = 4096 := by
        rw [length_countsBytes, List.length_take]
        omega
      have hstream : (vals.map be64Bytes).flatten =
          ((vals.take 512).map be64Bytes).flatten ++ ((vals.drop 512).map be64Bytes).flatten := by
        conv_lhs => rw [hsplit]
        rw [List.map_append, List.flatten_append]
      rw [decodeLoop, hstream]
      rw [List.take_left' hlen512, List.drop_left' hlen512,
        i64Group_countsBytes _ (fun v hvm => hv v (List.mem_of_mem_take hvm)),
        dif_neg (by rw [List.length_append, hlen512, length_countsBytes, List.length_drop]; omega)]
      rw [decodeLoop_countsBytes cl (vals.drop 512) _ _
        (fun v hvm => hv v (List.mem_of_mem_drop hvm))]
      conv_rhs => rw [hsplit, storeCounts_append]
termination_by vals _ _ _ => vals.length
decreasing_by simp [List.length_drop]; omega

/-- Dropping past a serialized `int32` prefix. -/
theorem drop_skip32 (v : Int) (rest : List Nat) (k : Nat) :
    (be32Bytes v ++ rest).drop (4 + k) = rest.drop k := by
  rw [← List.drop_drop, List.drop_left' (length_be32Bytes v)]

/-- Dropping past a serialized `int64` prefix. -/
theorem drop_skip64 (v : Int) (rest : List Nat) (k : Nat) :
    (be64Bytes v ++ rest).drop (8 + k) = rest.drop k := by
  rw [← List.drop_drop, List.drop_left' (length_be64Bytes v)]

/-- Decoding a well-formed envelope: envelope cookie, correct length field,
payload of encoding header plus serialized counts values.  The result is the
histogram constructed from the header fields, with `total_count` taken from
the header and counts produced by the store loop from the decoded values. -/
theorem hdr_decode_wellformed (countsLenOf : Int → Int → Int → Nat)
    (sig low high tot : Int) (vals : List Int)
    (hsig1 : -(2 ^ 31) ≤ sig) (hsig2 : sig < 2 ^ 31)
    (hlow1 : -(2 ^ 63) ≤ low) (hlow2 : low < 2 ^ 63)
    (hhigh1 : -(2 ^ 63) ≤ high) (hhigh2 : high < 2 ^ 63)
    (htot1 : -(2 ^ 63) ≤ tot) (htot2 : tot < 2 ^ 63)
    (hvals : ∀ v ∈ vals, -(2 ^ 63) ≤ v ∧ v < 2 ^ 63)
    (hne : vals ≠ [])
    (hsize : 32 + 8 * vals.length < 2 ^ 31) :
    hdr_decode_compressed countsLenOf
        (be32Bytes COMPRESSION_COOKIE ++
          be32Bytes ((32 + 8 * vals.length : Nat) : Int) ++
          (be32Bytes ENCODING_COOKIE ++ be32Bytes sig ++ be64Bytes low ++
            be64Bytes high ++ be64Bytes tot ++ (vals.map be64Bytes).flatten)) =
      Except.ok
        { lowest_trackable_value := low
          highest_trackable_value := high
          significant_figures := sig
          total_count := tot
          counts_len := countsLenOf low high sig
          counts := (storeCounts (countsLenOf low high sig)
            (List.replicate (countsLenOf low high sig) 0) 0 vals).1 } := by
  set payload : List Nat := be32Bytes ENCODING_COOKIE ++ be32Bytes sig ++
    be64Bytes low ++ be64Bytes high ++ be64Bytes tot ++ (vals.map be64Bytes).flatten
    with hpayload
  have hplen : payload.length = 32 + 8 * vals.length := by
    rw [hpayload]
    simp only [List.length_append, length_be32Bytes, length_be64Bytes, length_countsBytes]
  set buffer : List Nat := be32Bytes COMPRESSION_COOKIE ++
    be32Bytes ((32 + 8 * vals.length : Nat) : Int) ++ payload with hbuffer
  have hblen : buffer.length = 8 + payload.length := by
    rw [hbuffer]
    simp only [List.length_append, length_be32Bytes]
  have hassoc : buffer = be32Bytes COMPRESSION_COOKIE ++
      (be32Bytes ((32 + 8 * vals.length : Nat) : Int) ++ payload) := by
    rw [hbuffer, List.append_assoc]
  have hcookie : readBE32 buffer 0 = COMPRESSION_COOKIE := by
    rw [readBE32, List.drop_zero, hassoc,
      List.take_left' (length_be32Bytes _),
      readBack_be32 _ (by norm_num [COMPRESSION_COOKIE]) (by norm_num [COMPRESSION_COOKIE])]
  have hlenfield : readBE32 buffer 4 = ((32 + 8 * vals.length : Nat) : Int) := by
    rw [readBE32, hassoc, List.drop_left' (length_be32Bytes _),
      List.take_left' (length_be32Bytes _),
      readBack_be32 _ (by omega) (by omega)]
  have hstream : (buffer.drop 8).take (readBE32 buffer 4).toNat = payload := by
    have h8 : buffer.drop 8 = payload := by
      rw [hassoc, show (8 : Nat) = 4 + (4 + 0) from rfl, drop_skip32, drop_skip32,
        List.drop_zero]
    rw [hlenfield, h8, Int.toNat_natCast, ← hplen, List.take_length]
  have hpassoc0 : payload = (be32Bytes ENCODING_COOKIE) ++
      (be32Bytes sig ++ (be64Bytes low ++ (be64Bytes high ++ (be64Bytes tot ++
        (vals.map be64Bytes).flatten)))) := by
    rw [hpayload]
    simp only [List.append_assoc]
  have hd8 : payload.drop 8 = be64Bytes low ++ (be64Bytes high ++ (be64Bytes tot ++
      (vals.map be64Bytes).flatten)) := by
    rw [hpassoc0, show (8 : Nat) = 4 + (4 + 0) from rfl, drop_skip32, drop_skip32,
      List.drop_zero]
  have hd16 : payload.drop 16 = be64Bytes high ++ (be64Bytes tot ++
      (vals.map be64Bytes).flatten) := by
    rw [hpassoc0, show (16 : Nat) = 4 + (4 + (8 + 0)) from rfl, drop_skip32, drop_skip32,
      drop_skip64, List.drop_zero]
  have hd24 : payload.drop 24 = be64Bytes tot ++ (vals.map be64Bytes).flatten := by
    rw [hpassoc0, show (24 : Nat) = 4 + (4 + (8 + (8 + 0))) from rfl, drop_skip32,
      drop_skip32, drop_skip64, drop_skip64, List.drop_zero]
  have hd32 : payload.drop 32 = (vals.map be64Bytes).flatten := by
    rw [hpassoc0, show (32 : Nat) = 4 + (4 + (8 + (8 + (8 + 0)))) from rfl, drop_skip32,
      drop_skip32, drop_skip64, drop_skip64, drop_skip64, List.drop_zero]
  have hfield0 : readBE32 payload 0 = ENCODING_COOKIE := by
    rw [readBE32, List.drop_zero, hpassoc0, List.take_left' (length_be32Bytes _),
      readBack_be32 _ (by norm_num [ENCODING_COOKIE]) (by norm_num [ENCODING_COOKIE])]
  have hfield4 : readBE32 payload 4 = sig := by
    rw [readBE32, hpassoc0, List.drop_left' (length_be32Bytes _),
      List.take_left' (length_be32Bytes _), readBack_be32 _ hsig1 hsig2]
  have hfield8 : readBE64 payload 8 = low := by
    rw [readBE64, hd8, List.take_left' (length_be64Bytes _), readBack_be64 _ hlow1 hlow2]
  have hfield16 : readBE64 payload 16 = high := by
    rw [readBE64, hd16, List.take_left' (length_be64Bytes _), readBack_be64 _ hhigh1 hhigh2]
  have hfield24 : readBE64 payload 24 = tot := by
    rw [readBE64, hd24, List.take_left' (length_be64Bytes _), readBack_be64 _ htot1 htot2]
  have hvne : 1 ≤ vals.length := by
    cases vals with
    | nil => exact absurd rfl hne
    | cons a l => simp
  rw [hdr_decode_compressed]
  rw [if_neg (by omega), hcookie]
  simp only [ne_eq, not_true_eq_false, if_false, ite_false, if_neg (by simp : ¬ False)]
  rw [hstream]
  rw [if_neg (by rw [hplen]; omega)]
  rw [hfield0]
  simp only [ne_eq, not_true_eq_false, ite_false, if_neg (by simp : ¬ False)]
  rw [hfield4, hfield8, hfield16, hfield24, hd32, hdr_init]
  rw [decodeLoop_countsBytes _ vals _ _ hvals]

/-- The envelope emitted by `hdr_encode_compressed`, written out field by
field. -/
theorem hdr_encode_compressed_eq (h : HdrHistogram) :
    hdr_encode_compressed h =
      be32Bytes COMPRESSION_COOKIE ++
        be32Bytes ((32 + 8 * h.counts.length : Nat) : Int) ++
        (be32Bytes ENCODING_COOKIE ++ be32Bytes h.significant_figures ++
          be64Bytes h.lowest_trackable_value ++ be64Bytes h.highest_trackable_value ++
          be64Bytes h.total_count ++ (h.counts.map be64Bytes).flatten) := by
  have hL : (encodedHeaderBytes h ++ feedCounts h.counts).length =
      32 + 8 * h.counts.length := by
    rw [feedCounts_eq, encodedHeaderBytes]
    simp only [List.length_append, length_be32Bytes, length_be64Bytes, length_countsBytes]
  rw [hdr_encode_compressed, hL, feedCounts_eq, encodedHeaderBytes]

/-- **C1** (confirmed): the compressed encode/decode round trip.  For every
histogram snapshot (with in-range fields, a counts array of the configured
`counts_len ≥ 1`, and an envelope small enough for the `int32` length field),
decoding the bytes produced by `hdr_encode_compressed` succeeds and yields a
histogram with identical `significant_figures`, `lowest_trackable_value`,
`highest_trackable_value`, `total_count`, and counts sequence.  This covers
histograms with 0, 1, or `counts_len` nonzero buckets and arbitrarily large
counts sequences alike: the encoder's buffer-growth loop only manages memory
and never changes the emitted stream. -/
theorem hdr_encode_decode_roundtrip
    (countsLenOf : Int → Int → Int → Nat) (h : HdrHistogram)
    (hcl : h.counts_len = countsLenOf h.lowest_trackable_value h.highest_trackable_value
      h.significant_figures)
    (hlen : h.counts.length = h.counts_len)
    (hpos : 1 ≤ h.counts_len)
    (hsize : 32 + 8 * h.counts_len < 2 ^ 31)
    (hsig1 : -(2 ^ 31) ≤ h.significant_figures) (hsig2 : h.significant_figures < 2 ^ 31)
    (hlow1 : -(2 ^ 63) ≤ h.lowest_trackable_value) (hlow2 : h.lowest_trackable_value < 2 ^ 63)
    (hhigh1 : -(2 ^ 63) ≤ h.highest_trackable_value)
    (hhigh2 : h.highest_trackable_value < 2 ^ 63)
    (htot1 : -(2 ^ 63) ≤ h.total_count) (htot2 : h.total_count < 2 ^ 63)
    (hvals : ∀ v ∈ h.counts, -(2 ^ 63) ≤ v ∧ v < 2 ^ 63) :
    ∃ h2, hdr_decode_compressed countsLenOf (hdr_encode_compressed h) = Except.ok h2 ∧
      h2.significant_figures = h.significant_figures ∧
      h2.lowest_trackable_value = h.lowest_trackable_value ∧
      h2.highest_trackable_value = h.highest_trackable_value ∧
      h2.total_count = h.total_count ∧
      h2.counts = h.counts := by
  have hne : h.counts ≠ [] := by
    intro hnil
    rw [hnil] at hlen
    simp at hlen
    omega
  rw [hdr_encode_compressed_eq,
    hdr_decode_wellformed countsLenOf _ _ _ _ _ hsig1 hsig2 hlow1 hlow2 hhigh1 hhigh2
      htot1 htot2 hvals hne (by omega)]
  refine ⟨_, rfl, rfl, rfl, rfl, rfl, ?_⟩
  have hccl : h.counts.length = countsLenOf h.lowest_trackable_value
      h.highest_trackable_value h.significant_figures := by rw [hlen, hcl]
  rw [storeCounts_spec _ _ _ _ (by simp) (by omega)]
  simp only [List.take_zero, List.nil_append, Nat.zero_add, Nat.sub_zero,
    List.drop_replicate]
  rw [List.take_of_length_le (by omega), show countsLenOf h.lowest_trackable_value
      h.highest_trackable_value h.significant_figures - h.counts.length = 0 from by omega]
  simp

/-- The counts-length collaborator used by the witnesses: every configuration
gets two buckets. -/
def clf2 : Int → Int → Int → Nat := fun _ _ _ => 2

/-- A small concrete snapshot used by the witnesses. -/
def hW : HdrHistogram :=
  { lowest_trackable_value := 1
    highest_trackable_value := 1000
    significant_figures := 3
    total_count := 7
    counts_len := 2
    counts := [3, 4] }

/-- Witness for `hdr_encode_decode_roundtrip` on a concrete snapshot. -/
theorem hdr_encode_decode_roundtrip_witness :
    ∃ h2, hdr_decode_compressed clf2 (hdr_encode_compressed hW) = Except.ok h2 ∧
      h2.significant_figures = hW.significant_figures ∧
      h2.lowest_trackable_value = hW.lowest_trackable_value ∧
      h2.highest_trackable_value = hW.highest_trackable_value ∧
      h2.total_count = hW.total_count ∧
      h2.counts = hW.counts :=
  hdr_encode_decode_roundtrip clf2 hW (by decide) (by decide) (by decide) (by decide)
    (by decide) (by decide) (by decide) (by decide) (by decide) (by decide) (by decide)
    (by decide) (by decide)

/-- A one-bucket snapshot whose encoded payload is 40 bytes, used to pin the
`*compressed_len` endianness bug. -/
def hOne : HdrHistogram :=
  { lowest_trackable_value := 1
    highest_trackable_value := 100000
    significant_figures := 3
    total_count := 1
    counts_len := 1
    counts := [1] }

/-- **C4** (code bug): `hdr_encode_compressed` computes the returned length as
`sizeof(_compression_flyweight) + comp_fw->length` after
`comp_fw->length = htobe32(strm.total_out)`, so on a little-endian host the
returned length adds the byte-swapped value.  For `hOne` the payload is 40
bytes (envelope 48 bytes): a big-endian host reports 48, but a little-endian
host reports `8 + bswap32(40) = 671088648`, which is not the envelope's true
used length. -/
theorem encode_reported_len_endianness_bug :
    hdr_encode_compressed_len false hOne = 671088648 ∧
      ((hdr_encode_compressed hOne).length : Int) = 48 ∧
      hdr_encode_compressed_len true hOne = 48 ∧
      (671088648 : Int) ≠ 48 := by
  have h40 : (encodedHeaderBytes hOne ++ feedCounts hOne.counts).length = 40 := by
    rw [feedCounts_eq, encodedHeaderBytes]
    simp only [List.length_append, length_be32Bytes, length_be64Bytes, length_countsBytes]
    rfl
  refine ⟨?_, ?_, ?_, by decide⟩
  · rw [hdr_encode_compressed_len, encodeReportedLen, h40]
    decide
  · rw [hdr_encode_compressed_eq]
    simp only [List.length_append, length_be32Bytes, length_be64Bytes, length_countsBytes]
    decide
  · rw [hdr_encode_compressed_len, encodeReportedLen, h40]
    decide

/-- **C8** (confirmed): the counts phase of `hdr_decode_compressed` writes the
big-endian-decoded values sequentially from index 0 and never past
`counts_len`: when the decompressed stream carries at least `counts_len`
values, decoding still succeeds, the stored counts are exactly the first
`counts_len` decoded values, and excess values are silently discarded. -/
theorem hdr_decode_counts_never_past_counts_len
    (countsLenOf : Int → Int → Int → Nat) (sig low high tot : Int) (vals : List Int)
    (hsig1 : -(2 ^ 31) ≤ sig) (hsig2 : sig < 2 ^ 31)
    (hlow1 : -(2 ^ 63) ≤ low) (hlow2 : low < 2 ^ 63)
    (hhigh1 : -(2 ^ 63) ≤ high) (hhigh2 : high < 2 ^ 63)
    (htot1 : -(2 ^ 63) ≤ tot) (htot2 : tot < 2 ^ 63)
    (hvals : ∀ v ∈ vals, -(2 ^ 63) ≤ v ∧ v < 2 ^ 63)
    (hne : vals ≠ [])
    (hsize : 32 + 8 * vals.length < 2 ^ 31)
    (hcl : countsLenOf low high sig ≤ vals.length) :
    ∃ h2, hdr_decode_compressed countsLenOf
        (be32Bytes COMPRESSION_COOKIE ++
          be32Bytes ((32 + 8 * vals.length : Nat) : Int) ++
          (be32Bytes ENCODING_COOKIE ++ be32Bytes sig ++ be64Bytes low ++
            be64Bytes high ++ be64Bytes tot ++ (vals.map be64Bytes).flatten)) =
        Except.ok h2 ∧
      h2.counts = vals.take (countsLenOf low high sig) ∧
      h2.counts.length = countsLenOf low high sig := by
  rw [hdr_decode_wellformed countsLenOf _ _ _ _ _ hsig1 hsig2 hlow1 hlow2 hhigh1 hhigh2
    htot1 htot2 hvals hne hsize]
  refine ⟨_, rfl, ?_, ?_⟩
  · rw [storeCounts_spec _ _ _ _ (by simp) (by omega)]
    simp only [List.take_zero, List.nil_append, Nat.zero_add, Nat.sub_zero,
      List.drop_replicate]
    rw [show countsLenOf low high sig - vals.length = 0 from by omega]
    simp
  · rw [storeCounts_spec _ _ _ _ (by simp) (by omega)]
    simp only [List.take_zero, List.nil_append, Nat.zero_add, Nat.sub_zero,
      List.drop_replicate]
    rw [show countsLenOf low high sig - vals.length = 0 from by omega]
    simp only [List.replicate_zero, List.append_nil, List.length_take]
    omega

/-- Witness for `hdr_decode_counts_never_past_counts_len`: three encoded
values against `counts_len = 2`. -/
theorem hdr_decode_counts_never_past_counts_len_witness :
    ∃ h2, hdr_decode_compressed clf2
        (be32Bytes COMPRESSION_COOKIE ++
          be32Bytes ((32 + 8 * ([3, 4, 5] : List Int).length : Nat) : Int) ++
          (be32Bytes ENCODING_COOKIE ++ be32Bytes 3 ++ be64Bytes 1 ++
            be64Bytes 1000 ++ be64Bytes 7 ++ (([3, 4, 5] : List Int).map be64Bytes).flatten)) =
        Except.ok h2 ∧
      h2.counts = ([3, 4, 5] : List Int).take (clf2 1 1000 3) ∧
      h2.counts.length = clf2 1 1000 3 :=
  hdr_decode_counts_never_past_counts_len clf2 3 1 1000 7 [3, 4, 5]
    (by decide) (by decide) (by decide) (by decide) (by decide) (by decide) (by decide)
    (by decide) (by decide) (by decide) (by decide) (by decide)

/-- **C9** (confirmed): cookie validation.  Any buffer of at least envelope
size whose first four bytes do not decode (big-endian) to
`COMPRESSION_COOKIE` is rejected with `HDR_COMPRESSION_COOKIE_MISMATCH`; any
envelope with a valid outer cookie and correct length field whose
decompressed payload (longer than the 32-byte header) does not start with
`ENCODING_COOKIE` is rejected with `HDR_ENCODING_COOKIE_MISMATCH`.  In both
cases the result is an error, so the caller's histogram slot is never
populated. -/
theorem hdr_decode_cookie_mismatch (countsLenOf : Int → Int → Int → Nat) :
    (∀ buffer : List Nat, 8 ≤ buffer.length →
        readBE32 buffer 0 ≠ COMPRESSION_COOKIE →
        hdr_decode_compressed countsLenOf buffer =
          Except.error HDR_COMPRESSION_COOKIE_MISMATCH) ∧
      (∀ payload : List Nat, 32 < payload.length → payload.length < 2 ^ 31 →
        readBE32 payload 0 ≠ ENCODING_COOKIE →
        hdr_decode_compressed countsLenOf
            (be32Bytes COMPRESSION_COOKIE ++ be32Bytes ((payload.length : Nat) : Int) ++
              payload) =
          Except.error HDR_ENCODING_COOKIE_MISMATCH) := by
  constructor
  · intro buffer hlen hcookie
    rw [hdr_decode_compressed, if_neg (by omega), if_pos hcookie]
  · intro payload h32 h31 hcookie
    have hassoc : be32Bytes COMPRESSION_COOKIE ++ be32Bytes ((payload.length : Nat) : Int) ++
        payload = be32Bytes COMPRESSION_COOKIE ++
          (be32Bytes ((payload.length : Nat) : Int) ++ payload) := by
      rw [List.append_assoc]
    have hblen : (be32Bytes COMPRESSION_COOKIE ++ be32Bytes ((payload.length : Nat) : Int) ++
        payload).length = 8 + payload.length := by
      simp only [List.length_append, length_be32Bytes]
    have hcook : readBE32 (be32Bytes COMPRESSION_COOKIE ++
        be32Bytes ((payload.length : Nat) : Int) ++ payload) 0 = COMPRESSION_COOKIE := by
      rw [readBE32, List.drop_zero, hassoc, List.take_left' (length_be32Bytes _),
        readBack_be32 _ (by norm_num [COMPRESSION_COOKIE]) (by norm_num [COMPRESSION_COOKIE])]
    have hlenfield : readBE32 (be32Bytes COMPRESSION_COOKIE ++
        be32Bytes ((payload.length : Nat) : Int) ++ payload) 4 =
        ((payload.length : Nat) : Int) := by
      rw [readBE32, hassoc, List.drop_left' (length_be32Bytes _),
        List.take_left' (length_be32Bytes _), readBack_be32 _ (by omega) (by omega)]
    have hstream : ((be32Bytes COMPRESSION_COOKIE ++
          be32Bytes ((payload.length : Nat) : Int) ++ payload).drop 8).take
        (readBE32 (be32Bytes COMPRESSION_COOKIE ++
          be32Bytes ((payload.length : Nat) : Int) ++ payload) 4).toNat = payload := by
      have h8 : (be32Bytes COMPRESSION_COOKIE ++
          be32Bytes ((payload.length : Nat) : Int) ++ payload).drop 8 = payload := by
        rw [hassoc, show (8 : Nat) = 4 + (4 + 0) from rfl, drop_skip32, drop_skip32,
          List.drop_zero]
      rw [hlenfield, h8, Int.toNat_natCast, List.take_length]
    rw [hdr_decode_compressed, if_neg (by omega), hcook]
    simp only [ne_eq, not_true_eq_false, if_false, ite_false, if_neg (by simp : ¬ False)]
    rw [hstream, if_neg (by omega), if_pos hcookie]

/-- Witness for `hdr_decode_cookie_mismatch`: an all-zero 8-byte buffer for
the outer cookie, and a 40-byte all-zero payload behind a valid envelope for
the inner cookie. -/
theorem hdr_decode_cookie_mismatch_witness :
    (8 ≤ (List.replicate 8 0 : List Nat).length ∧
        hdr_decode_compressed clf2 (List.replicate 8 0) =
          Except.error HDR_COMPRESSION_COOKIE_MISMATCH) ∧
      (32 < (List.replicate 40 0 : List Nat).length ∧
        hdr_decode_compressed clf2
            (be32Bytes COMPRESSION_COOKIE ++
              be32Bytes (((List.replicate 40 0 : List Nat).length : Nat) : Int) ++
              List.replicate 40 0) =
          Except.error HDR_ENCODING_COOKIE_MISMATCH) :=
  ⟨⟨by decide, (hdr_decode_cookie_mismatch clf2).1 (List.replicate 8 0) (by decide)
      (by decide)⟩,
   ⟨by decide, (hdr_decode_cookie_mismatch clf2).2 (List.replicate 40 0) (by decide)
      (by decide) (by decide)⟩⟩

/-- **C10** (confirmed): `hdr_decode_compressed` never validates the header's
`total_count` against the decoded counts: for a well-formed envelope whose
header `total_count` differs from the sum of the encoded counts values,
decoding still succeeds and the returned histogram's `total_count` is the
header value, not the sum (the `counts_tally` the C accumulates is dead). -/
theorem hdr_decode_total_count_unvalidated
    (countsLenOf : Int → Int → Int → Nat) (sig low high tot : Int) (vals : List Int)
    (hsig1 : -(2 ^ 31) ≤ sig) (hsig2 : sig < 2 ^ 31)
    (hlow1 : -(2 ^ 63) ≤ low) (hlow2 : low < 2 ^ 63)
    (hhigh1 : -(2 ^ 63) ≤ high) (hhigh2 : high < 2 ^ 63)
    (htot1 : -(2 ^ 63) ≤ tot) (htot2 : tot < 2 ^ 63)
    (hvals : ∀ v ∈ vals, -(2 ^ 63) ≤ v ∧ v < 2 ^ 63)
    (hne : vals ≠ [])
    (hsize : 32 + 8 * vals.length < 2 ^ 31)
    (hmismatch : tot ≠ vals.sum) :
    ∃ h2, hdr_decode_compressed countsLenOf
        (be32Bytes COMPRESSION_COOKIE ++
          be32Bytes ((32 + 8 * vals.length : Nat) : Int) ++
          (be32Bytes ENCODING_COOKIE ++ be32Bytes sig ++ be64Bytes low ++
            be64Bytes high ++ be64Bytes tot ++ (vals.map be64Bytes).flatten)) =
        Except.ok h2 ∧
      h2.total_count = tot ∧ h2.total_count ≠ vals.sum := by
  rw [hdr_decode_wellformed countsLenOf _ _ _ _ _ hsig1 hsig2 hlow1 hlow2 hhigh1 hhigh2
    htot1 htot2 hvals hne hsize]
  exact ⟨_, rfl, rfl, hmismatch⟩

/-- Witness for `hdr_decode_total_count_unvalidated`: header `total_count` 7
against encoded counts summing to 12. -/
theorem hdr_decode_total_count_unvalidated_witness :
    ∃ h2, hdr_decode_compressed clf2
        (be32Bytes COMPRESSION_COOKIE ++
          be32Bytes ((32 + 8 * ([3, 4, 5] : List Int).length : Nat) : Int) ++
          (be32Bytes ENCODING_COOKIE ++ be32Bytes 3 ++ be64Bytes 1 ++
            be64Bytes 1000 ++ be64Bytes 7 ++ (([3, 4, 5] : List Int).map be64Bytes).flatten)) =
        Except.ok h2 ∧
      h2.total_count = 7 ∧ h2.total_count ≠ ([3, 4, 5] : List Int).sum :=
  hdr_decode_total_count_unvalidated clf2 3 1 1000 7 [3, 4, 5]
    (by decide) (by decide) (by decide) (by decide) (by decide) (by decide) (by decide)
    (by decide) (by decide) (by decide) (by decide) (by decide)

/-! ## Log record parser -/

/-- C `isspace` in the default locale: space, `\t`, `\n`, `\v`, `\f`, `\r`. -/
def isSpaceC (c : Char) : Bool :=
  c = ' ' || c = '\t' || c = '\n' || c = '\x0b' || c = '\x0c' || c = '\r'

/-- `null_trailing_whitespace`: overwrite the trailing whitespace run with NULs,
i.e. truncate the string at its last non-whitespace character. -/
def null_trailing_whitespace (s : List Char) : List Char :=
  (s.reverse.dropWhile isSpaceC).reverse

/-- `starts_with`: the first non-whitespace character is `c`; a string with no
non-whitespace character at all counts as a match (the C loop falls through to
`return true`). -/
def starts_with (s : List Char) (c : Char) : Bool :=
  match s.dropWhile isSpaceC with
  | [] => true
  | x :: _ => x = c

/-- `is_comment`: the line starts with `#`. -/
def is_comment (s : List Char) : Bool := starts_with s '#'

/-- Decimal digits to a number. -/
def digitsToNat (ds : List Char) : Nat := ds.foldl (fun a c => a * 10 + (c.toNat - 48)) 0

/-- `sscanf` `%d`: skip whitespace, optional sign, then at least one decimal
digit; returns the value and the rest of the input, or `none` on matching
failure.  (The C stores into `int`; the inputs exercised here are small, so
the model keeps exact integers.) -/
def scanIntTok (s : List Char) : Option (Int × List Char) :=
  match s.dropWhile isSpaceC with
  | '-' :: rest =>
    if (rest.takeWhile Char.isDigit) = [] then none
    else some (-(digitsToNat (rest.takeWhile Char.isDigit) : Int),
      rest.dropWhile Char.isDigit)
  | '+' :: rest =>
    if (rest.takeWhile Char.isDigit) = [] then none
    else some ((digitsToNat (rest.takeWhile Char.isDigit) : Int),
      rest.dropWhile Char.isDigit)
  | s1 =>
    if (s1.takeWhile Char.isDigit) = [] then none
    else some ((digitsToNat (s1.takeWhile Char.isDigit) : Int),
      s1.dropWhile Char.isDigit)

/-- `sscanf` literal (non-whitespace) character: must match exactly. -/
def scanLit (c : Char) (s : List Char) : Option (List Char) :=
  match s with
  | x :: rest => if x = c then some rest else none
  | [] => none

/-- `sscanf` `%s`: skip whitespace, then a non-empty maximal run of
non-whitespace characters. -/
def scanTok (s : List Char) : Option (List Char × List Char) :=
  if ((s.dropWhile isSpaceC).takeWhile (fun c => !isSpaceC c)) = [] then none
  else some ((s.dropWhile isSpaceC).takeWhile (fun c => !isSpaceC c),
    (s.dropWhile isSpaceC).dropWhile (fun c => !isSpaceC c))

/-- `sscanf` literal string: each character must match exactly. -/
def scanLits : List Char → List Char → Option (List Char)
  | [], s => some s
  | l :: ls, [] => none
  | l :: ls, x :: xs => if x = l then scanLits ls xs else none

/-- The record-line `sscanf` with format `"%d.%d,%d.%d,%d.%d,%s"`: returns the
number of successfully assigned conversions (0–7) and, when all seven match,
the trailing token (`sscanf` stops at the first failing directive and returns
the number of assignments made so far). -/
def scanRecord (line : List Char) : Nat × List Char :=
  match scanIntTok line with
  | none => (0, [])
  | some (_, s1) =>
    match scanLit '.' s1 with
    | none => (1, [])
    | some s2 =>
      match scanIntTok s2 with
      | none => (1, [])
      | some (_, s3) =>
        match scanLit ',' s3 with
        | none => (2, [])
        | some s4 =>
          match scanIntTok s4 with
          | none => (2, [])
          | some (_, s5) =>
            match scanLit '.' s5 with
            | none => (3, [])
            | some s6 =>
              match scanIntTok s6 with
              | none => (3, [])
              | some (_, s7) =>
                match scanLit ',' s7 with
                | none => (4, [])
                | some s8 =>
                  match scanIntTok s8 with
                  | none => (4, [])
                  | some (_, s9) =>
                    match scanLit '.' s9 with
                    | none => (5, [])
                    | some s10 =>
                      match scanIntTok s10 with
                      | none => (5, [])
                      | some (_, s11) =>
                        match scanLit ',' s11 with
                        | none => (6, [])
                        | some s12 =>
                          match scanTok s12 with
                          | none => (6, [])
                          | some (tok, _) => (7, tok)

/-- `_log_header`: version numbers and start time from the comment block. -/
structure LogHeader where
  major_version : Int
  minor_version : Int
  start_time_ms : Int
deriving Repr, DecidableEq

/-- `scan_log_format`, the `sscanf` with format
`"#[Histogram log format version %d.%d]"`.  A whitespace character in a
`scanf` format matches any amount of input whitespace (including none), a
non-whitespace literal must match exactly, and fields are assigned one at a
time as the scan progresses (a line matching only up to the major version
still assigns it). -/
def scan_log_format (line : List Char) (hdr : LogHeader) : LogHeader :=
  match scanLits "#[Histogram".toList line with
  | none => hdr
  | some s1 =>
    match scanLits "log".toList (s1.dropWhile isSpaceC) with
    | none => hdr
    | some s2 =>
      match scanLits "format".toList (s2.dropWhile isSpaceC) with
      | none => hdr
      | some s3 =>
        match scanLits "version".toList (s3.dropWhile isSpaceC) with
        | none => hdr
        | some s4 =>
          match scanIntTok s4 with
          | none => hdr
          | some (maj, s5) =>
            match scanLit '.' s5 with
            | none => { hdr with major_version := maj }
            | some s6 =>
              match scanIntTok s6 with
              | none => { hdr with major_version := maj }
              | some (minr, _) =>
                { hdr with major_version := maj, minor_version := minr }

/-- `scan_start_time`, the `sscanf` with format `"#[StartTime: %d.%d [^\n]"`:
the header's `start_time_ms` is assigned `seconds * 1000 + millis` only when
both integers match (`sscanf(...) == 2`); `%d` greedily consumes the whole
digit run after the dot. -/
def scan_start_time (line : List Char) (hdr : LogHeader) : LogHeader :=
  match scanLits "#[StartTime:".toList line with
  | none => hdr
  | some s1 =>
    match scanIntTok s1 with
    | none => hdr
    | some (ts, s2) =>
      match scanLit '.' s2 with
      | none => hdr
      | some s3 =>
        match scanIntTok s3 with
        | none => hdr
        | some (ms, _) => { hdr with start_time_ms := ts * 1000 + ms }

/-- The loop of `parse_log_comments`: scan comment lines (applying both tagged
forms to each), stop at — and consume — the first non-comment line (or end of
input). -/
def parse_log_comments_loop (hdr : LogHeader) :
    List (List Char) → LogHeader × List (List Char)
  | [] => (hdr, [])
  | line :: rest =>
    if is_comment line then
      parse_log_comments_loop (scan_start_time line (scan_log_format line hdr)) rest
    else (hdr, rest)

/-- `parse_log_comments`: header fields start zeroed. -/
def parse_log_comments (lines : List (List Char)) : LogHeader × List (List Char) :=
  parse_log_comments_loop ⟨0, 0, 0⟩ lines

/-- `parse_lines`: one record per line.  Mirrors the source loop: a line whose
`sscanf` does not yield 7 tokens fails the parse with `EINVAL`; a failing
`base64_decode` fails the parse with its error; `hdr_decode_compressed` is
then attempted and its histogram is printed via `hdr_percentiles_print` only
when it returns 0 — on any decode error the line is silently skipped and the
loop continues.  Returns the C result code together with the list of
histograms that reached the print call (the observable success-path effect). -/
def parse_lines (countsLenOf : Int → Int → Int → Nat) :
    List (List Char) → Int × List HdrHistogram
  | [] => (0, [])
  | line :: rest =>
    if (scanRecord line).1 ≠ 7 then (EINVAL, [])
    else
      match base64_decode (null_trailing_whitespace (scanRecord line).2)
          (base64_decoded_len (null_trailing_whitespace (scanRecord line).2).length) with
      | .error e => (e, [])
      | .ok compressed =>
        match hdr_decode_compressed countsLenOf compressed with
        | .ok h =>
          ((parse_lines countsLenOf rest).1, h :: (parse_lines countsLenOf rest).2)
        | .error _ => parse_lines countsLenOf rest

/-- `hdr_parse_log`: parses the comment header (which consumes the CSV column
header line), then the record lines — and discards `parse_lines`' return
value, returning 0 unconditionally. -/
def hdr_parse_log (countsLenOf : Int → Int → Int → Nat) (lines : List (List Char)) :
    Int × List HdrHistogram :=
  (0, (parse_lines countsLenOf (parse_log_comments lines).2).2)

/-- The format-version header line from the claim. -/
def verLine : List Char := "#[Histogram log format version 1.2]\n".toList

/-- The start-time header line from the claim. -/
def stLine : List Char :=
  "#[StartTime: 1441812279.139000 (Wed Sep 09 15:04:39 PDT 2015)]\n".toList

/-- **C3 counterexample**: parsing the two header lines yields
`major_version = 1` and `minor_version = 2`, but `start_time_ms` is *not*
`1441812279139`: `sscanf`'s `%d` consumes the whole digit run `139000` after
the dot, and the code folds it in as `1441812279 * 1000 + 139000`. -/
theorem log_header_start_time_cex :
    (parse_log_comments [verLine, stLine]).1.major_version = 1 ∧
      (parse_log_comments [verLine, stLine]).1.minor_version = 2 ∧
      (parse_log_comments [verLine, stLine]).1.start_time_ms ≠ 1441812279139 := by
  refine ⟨by rfl, by rfl, by decide⟩

/-- **C3** (corrected, amended claim): parsing a log whose header lines are
`#[Histogram log format version 1.2]` and `#[StartTime: 1441812279.139000 …]`
yields `major_version = 1`, `minor_version = 2`, and
`start_time_ms = 1441812279 * 1000 + 139000 = 1441812418000` — the entire
digit run after the dot is parsed as the "millisecond" integer and added to
`seconds * 1000`. -/
theorem log_header_parse :
    (parse_log_comments [verLine, stLine]).1 =
      { major_version := 1, minor_version := 2, start_time_ms := 1441812418000 } := by
  rfl

/-- The counts-length collaborator for the parser examples. -/
def clf0 : Int → Int → Int → Nat := fun _ _ _ => 1

/-- A record line whose Base64 token (`AAAAAAAAAAAA`) decodes to nine zero
bytes, which `hdr_decode_compressed` rejects. -/
def badRecordLine : List Char := "0.0,0.0,0.0,AAAAAAAAAAAA\n".toList

/-- **C5 counterexample**: the Base64 token of `badRecordLine` decodes fine,
`hdr_decode_compressed` then fails with the compression-cookie mismatch, yet
`parse_lines` returns 0 with no histogram emitted: the decode error is not
returned to the caller and the parse is not aborted. -/
theorem parse_lines_decode_failure_not_fatal :
    base64_decode (null_trailing_whitespace (scanRecord badRecordLine).2)
        (base64_decoded_len (null_trailing_whitespace (scanRecord badRecordLine).2).length) =
      Except.ok (List.replicate 9 0) ∧
      hdr_decode_compressed clf0 (List.replicate 9 0) =
        Except.error HDR_COMPRESSION_COOKIE_MISMATCH ∧
      parse_lines clf0 [badRecordLine] = (0, []) := by
  refine ⟨by rfl, by rfl, by rfl⟩

/-- **C5** (corrected, amended claim): during log parsing, a record line whose
Base64 token decodes but whose `hdr_decode_compressed` step fails is silently
skipped — the loop body only inspects whether the decode returned 0 (to print
the histogram) and otherwise continues with the remaining lines, returning no
error for that record.  (Only `sscanf` and `base64_decode` failures abort the
parse.) -/
theorem parse_lines_skips_failed_decode
    (countsLenOf : Int → Int → Int → Nat) (line : List Char) (rest : List (List Char))
    (bs : List Nat) (e : Int)
    (h7 : (scanRecord line).1 = 7)
    (hb : base64_decode (null_trailing_whitespace (scanRecord line).2)
      (base64_decoded_len (null_trailing_whitespace (scanRecord line).2).length) =
        Except.ok bs)
    (hd : hdr_decode_compressed countsLenOf bs = Except.error e) :
    parse_lines countsLenOf (line :: rest) = parse_lines countsLenOf rest := by
  rw [parse_lines, if_neg (by simp [h7])]
  simp only [hb, hd]

/-- Witness for `parse_lines_skips_failed_decode` on `badRecordLine`. -/
theorem parse_lines_skips_failed_decode_witness :
    (scanRecord badRecordLine).1 = 7 ∧
      parse_lines clf0 (badRecordLine :: [verLine]) = parse_lines clf0 [verLine] :=
  ⟨by decide,
   parse_lines_skips_failed_decode clf0 badRecordLine [verLine] (List.replicate 9 0)
     HDR_COMPRESSION_COOKIE_MISMATCH (by decide) (by rfl) (by rfl)⟩

/-- The conventional CSV column-header line (consumed by the comment parser as
the first non-comment line). -/
def colLine : List Char :=
  "StartTimestamp,EndTimestamp,Interval_Max,Interval_Compressed_Histogram\n".toList

/-- A line that yields no `sscanf` assignment at all. -/
def junkLine : List Char := "junk junk\n".toList

/-- **C6 counterexample**: on a log whose record phase starts with a malformed
line, `parse_lines` does return `EINVAL`, but `hdr_parse_log` — the parse
operation called by the user — ignores `parse_lines`' return value and
returns 0, so the invalid-argument condition is silently swallowed rather
than returned to the caller. -/
theorem hdr_parse_log_swallows_einval :
    (scanRecord junkLine).1 ≠ 7 ∧
      parse_lines clf0 [junkLine] = (EINVAL, []) ∧
      (hdr_parse_log clf0 [verLine, colLine, junkLine]).1 = 0 := by
  refine ⟨by decide, by rfl, by rfl⟩

/-- **C6** (corrected, amended claim): a record-phase line that does not yield
exactly 7 `sscanf` fields halts `parse_lines` at that line, which returns
`EINVAL` without processing later lines; `hdr_parse_log`, however, discards
`parse_lines`' return value and returns 0 unconditionally, so the condition
is not propagated to `hdr_parse_log`'s caller. -/
theorem parse_lines_malformed_einval
    (countsLenOf : Int → Int → Int → Nat) (line : List Char) (rest : List (List Char))
    (h : (scanRecord line).1 ≠ 7) :
    parse_lines countsLenOf (line :: rest) = (EINVAL, []) ∧
      ∀ lines : List (List Char), (hdr_parse_log countsLenOf lines).1 = 0 := by
  constructor
  · rw [parse_lines, if_pos h]
  · intro lines
    rfl

/-- Witness for `parse_lines_malformed_einval` on `junkLine`. -/
theorem parse_lines_malformed_einval_witness :
    (scanRecord junkLine).1 ≠ 7 ∧
      (parse_lines clf0 (junkLine :: [badRecordLine]) = (EINVAL, []) ∧
        ∀ lines : List (List Char), (hdr_parse_log clf0 lines).1 = 0) :=
  ⟨by decide, parse_lines_malformed_einval clf0 junkLine [badRecordLine] (by decide)⟩

end HdrLog
